import Mathlib

/-!
Verification of the document-assembly pipeline of the OCR_DOC application
(sources: src/App.tsx, src/types.ts, src/utils/pdfUtils.ts, src/utils/sortUtils.ts).

JavaScript strings are modelled as Lean `String` (lists of characters where
character-level work is needed), JavaScript numbers that only ever hold exact
small values (canvas geometry, 0-1000 boxes, padding) as rationals, and each
external collaborator (layout analysis, ranking, summarization, serialization,
the canvas) as an explicit response value handed to the function under test.
-/

namespace OcrDoc

/- ### Data model (src/types.ts) -/

/-- The closed block-type enum of `PageContentBlock.type` in src/types.ts. -/
inductive BlockType
  | heading
  | subheading
  | author
  | paragraph
  | image_description
  | table_row
  | table_crop
  | formula_crop
  | image_crop
deriving DecidableEq

/-- A decoded raster payload. `width`/`height` are the decoded pixel
dimensions, `mime` the container format, `tag` stands for the byte payload
identity. -/
structure Blob where
  mime : String
  width : ℚ
  height : ℚ
  tag : Nat := 0
deriving DecidableEq

/-- `PageContentBlock` of src/types.ts. Text is modelled as a character list. -/
structure ContentBlock where
  type : BlockType
  text : List Char := []
  boundingBox : Option (List ℚ) := none
deriving DecidableEq

/-- `PageAnalysisResult` of src/types.ts. -/
structure PageAnalysisResult where
  pageNumber : Option Int := none
  blocks : List ContentBlock := []
  hasContinuingSentence : Bool := false
deriving DecidableEq, Inhabited

/-- The `sourceType` field of `DocxGenerationData`. -/
inductive SourceKind
  | image
  | pdf
deriving DecidableEq, Inhabited

/-- `DocxGenerationData` of src/types.ts: one analysed page ready for assembly. -/
structure DocxGenerationData where
  originalFileName : String
  analysis : PageAnalysisResult
  imageBlob : Option Blob := none
  sourceType : SourceKind := SourceKind.image
deriving DecidableEq, Inhabited

/- ### Stable sort (JS Array.prototype.sort is specified stable) -/

/-- Insert `x` in front of the first element `y` with `le x y`; together with
`sortLe` this is the standard stable-sort model of `Array.prototype.sort`
called with a comparator. -/
def insertLe {α : Type _} (le : α → α → Bool) (x : α) : List α → List α
  | [] => [x]
  | y :: ys => if le x y then x :: y :: ys else y :: insertLe le x ys

/-- Stable sort by the boolean relation `le` (insertion sort). -/
def sortLe {α : Type _} (le : α → α → Bool) : List α → List α
  | [] => []
  | x :: xs => insertLe le x (sortLe le xs)

theorem insertLe_perm {α : Type _} (le : α → α → Bool) (x : α) :
    ∀ l : List α, (insertLe le x l).Perm (x :: l) := by
  intro l
  induction l with
  | nil => simp [insertLe]
  | cons y ys ih =>
    simp only [insertLe]
    split
    · exact List.Perm.refl _
    · exact (ih.cons y).trans (List.Perm.swap x y ys)

theorem sortLe_perm {α : Type _} (le : α → α → Bool) :
    ∀ l : List α, (sortLe le l).Perm l := by
  intro l
  induction l with
  | nil => exact List.Perm.refl _
  | cons x xs ih =>
    simp only [sortLe]
    exact (insertLe_perm le x (sortLe le xs)).trans (ih.cons x)

theorem length_insertLe {α : Type _} (le : α → α → Bool) (x : α) (l : List α) :
    (insertLe le x l).length = l.length + 1 :=
  (insertLe_perm le x l).length_eq

theorem length_sortLe {α : Type _} (le : α → α → Bool) (l : List α) :
    (sortLe le l).length = l.length :=
  (sortLe_perm le l).length_eq

theorem pairwise_insertLe {α : Type _} (le : α → α → Bool)
    (htot : ∀ a b, le a b = true ∨ le b a = true)
    (htrans : ∀ a b c, le a b = true → le b c = true → le a c = true)
    (x : α) : ∀ l : List α, l.Pairwise (fun a b => le a b = true) →
      (insertLe le x l).Pairwise (fun a b => le a b = true) := by
  intro l
  induction l with
  | nil => intro _; simp [insertLe]
  | cons y ys ih =>
    intro hp
    rcases List.pairwise_cons.mp hp with ⟨hy, hys⟩
    simp only [insertLe]
    split
    · rename_i hxy
      refine List.pairwise_cons.mpr ⟨?_, hp⟩
      intro z hz
      rcases List.mem_cons.mp hz with hz | hz
      · cases hz; exact hxy
      · exact htrans x y z hxy (hy z hz)
    · rename_i hxy
      have hyx : le y x = true := by
        rcases htot x y with h | h
        · exact absurd h hxy
        · exact h
      refine List.pairwise_cons.mpr ⟨?_, ih hys⟩
      intro z hz
      have := (insertLe_perm le x ys).mem_iff.mp hz
      rcases List.mem_cons.mp this with hz1 | hz2
      · cases hz1; exact hyx
      · exact hy z hz2

theorem pairwise_sortLe {α : Type _} (le : α → α → Bool)
    (htot : ∀ a b, le a b = true ∨ le b a = true)
    (htrans : ∀ a b c, le a b = true → le b c = true → le a c = true) :
    ∀ l : List α, (sortLe le l).Pairwise (fun a b => le a b = true) := by
  intro l
  induction l with
  | nil => simp [sortLe]
  | cons x xs ih =>
    simp only [sortLe]
    exact pairwise_insertLe le htot htrans x _ ih

/- ### Reorderer (reorderPagesByContent, src geminiService) -/

/-- The three observable outcomes of the ranking-collaborator call inside
`reorderPagesByContent`: the call threw, the response had no text, or the
response parsed to an integer array. -/
inductive RankResponse
  | failure
  | noText
  | hint (ids : List Int)

/-- Sort key of the catch-branch fallback `(a.analysis.pageNumber || 999)`:
an absent page number — and, by JS falsiness, a `0` page number — becomes
`999`. -/
def fallbackKey (p : DocxGenerationData) : Int :=
  match p.analysis.pageNumber with
  | some n => if n = 0 then 999 else n
  | none => 999

/-- Boolean key comparison used by the fallback sort comparator. -/
def keyLe (a b : DocxGenerationData) : Bool :=
  decide (fallbackKey a ≤ fallbackKey b)

/-- `[...pages].sort((a, b) => (a.analysis.pageNumber || 999) - (b.analysis.pageNumber || 999))`. -/
def jsSortByKey (pages : List DocxGenerationData) : List DocxGenerationData :=
  sortLe keyLe pages

/-- JS array indexing `pages[id]` for a (possibly negative or too large)
integer index: `none` models `undefined`. -/
def jsIndex {α : Type _} (pages : List α) (id : Int) : Option α :=
  if id < 0 then none else pages[id.toNat]?

/-- The body of the response branch of `reorderPagesByContent`: push
`pages[id]` for every hint entry that hits an element, then append every page
whose index does not occur in the hint, in original order. -/
def applyHint (pages : List DocxGenerationData) (ids : List Int) :
    List DocxGenerationData :=
  ids.filterMap (fun id => jsIndex pages id) ++
    (List.range pages.length).filterMap
      (fun idx => if (Int.ofNat idx) ∈ ids then none else pages[idx]?)

/-- `reorderPagesByContent` (src geminiService), with the external ranking
call replaced by its observed outcome `resp`. -/
def reorderPagesByContent (pages : List DocxGenerationData) (resp : RankResponse) :
    List DocxGenerationData :=
  if pages.length ≤ 1 then pages
  else
    match resp with
    | RankResponse.hint ids => applyHint pages ids
    | RankResponse.noText => pages
    | RankResponse.failure => jsSortByKey pages

/-- Lexicographic comparison on (fallback key, original position); the
deterministic fallback is a stable sort, so it orders the enumerated pages by
exactly this relation. -/
def lexKeyLe (x y : Nat × DocxGenerationData) : Bool :=
  if fallbackKey x.2 = fallbackKey y.2 then decide (x.1 ≤ y.1)
  else decide (fallbackKey x.2 ≤ fallbackKey y.2)

theorem lexKeyLe_total (x y : Nat × DocxGenerationData) :
    lexKeyLe x y = true ∨ lexKeyLe y x = true := by
  simp only [lexKeyLe]
  split <;> split <;> simp_all <;> omega

theorem lexKeyLe_trans (x y z : Nat × DocxGenerationData) :
    lexKeyLe x y = true → lexKeyLe y z = true → lexKeyLe x z = true := by
  simp only [lexKeyLe]
  split <;> split <;> split <;> simp_all <;> omega

theorem mem_enumFrom_le {α : Type _} (l : List α) :
    ∀ n q, q ∈ List.enumFrom n l → n ≤ q.1 := by
  induction l with
  | nil => intro n q h; simp [List.enumFrom] at h
  | cons a as ih =>
    intro n q h
    rcases List.mem_cons.mp h with h | h
    · cases h; exact Nat.le_refl n
    · exact Nat.le_of_succ_le (ih (n + 1) q h)

theorem map_snd_insertLe (n : Nat) (a : DocxGenerationData) :
    ∀ L : List (Nat × DocxGenerationData), (∀ q ∈ L, n < q.1) →
      (insertLe lexKeyLe (n, a) L).map Prod.snd =
        insertLe keyLe a (L.map Prod.snd) := by
  intro L
  induction L with
  | nil => intro _; rfl
  | cons q rest ih =>
    intro hq
    obtain ⟨j, b⟩ := q
    have hnj : n < j := hq (j, b) (List.mem_cons_self _ _)
    have hcmp : lexKeyLe (n, a) (j, b) = keyLe a b := by
      simp only [lexKeyLe, keyLe]
      split
      · rename_i heq
        simp [heq, Nat.le_of_lt hnj]
      · rfl
    simp only [insertLe, hcmp]
    split
    · rfl
    · simp only [List.map_cons]
      rw [ih (fun q hqm => hq q (List.mem_cons_of_mem _ hqm))]

theorem map_snd_sortLe_enumFrom :
    ∀ (l : List DocxGenerationData) (n : Nat),
      (sortLe lexKeyLe (List.enumFrom n l)).map Prod.snd = sortLe keyLe l := by
  intro l
  induction l with
  | nil => intro n; rfl
  | cons a as ih =>
    intro n
    have hbound : ∀ q ∈ sortLe lexKeyLe (List.enumFrom (n + 1) as), n < q.1 := by
      intro q hqmem
      have : q ∈ List.enumFrom (n + 1) as :=
        (sortLe_perm lexKeyLe _).mem_iff.mp hqmem
      exact Nat.lt_of_succ_le (mem_enumFrom_le as (n + 1) q this)
    show (insertLe lexKeyLe (n, a) (sortLe lexKeyLe (List.enumFrom (n + 1) as))).map
        Prod.snd = insertLe keyLe a (sortLe keyLe as)
    rw [map_snd_insertLe n a _ hbound, ih (n + 1)]

theorem sortLe_short {α : Type _} (le : α → α → Bool) (l : List α)
    (h : l.length ≤ 1) : sortLe le l = l := by
  match l, h with
  | [], _ => rfl
  | [x], _ => rfl

theorem filterMap_eq_map_of_some {α β : Type _} (f : α → Option β) (g : α → β) :
    ∀ l : List α, (∀ a ∈ l, f a = some (g a)) → l.filterMap f = l.map g := by
  intro l
  induction l with
  | nil => intro _; rfl
  | cons x xs ih =>
    intro h
    simp [List.filterMap_cons, h x (List.mem_cons_self _ _),
      ih (fun a ha => h a (List.mem_cons_of_mem _ ha))]

/- ### Concrete pages used in the closed statements below -/

def demoP0 : DocxGenerationData :=
  { originalFileName := "p0", analysis := { pageNumber := some 3 } }

def demoP1 : DocxGenerationData :=
  { originalFileName := "p1", analysis := { pageNumber := some 1 } }

def demoP2 : DocxGenerationData :=
  { originalFileName := "p2", analysis := { pageNumber := some 2 } }

def bigNumPage : DocxGenerationData :=
  { originalFileName := "big", analysis := { pageNumber := some 1000 } }

def noNumPage : DocxGenerationData :=
  { originalFileName := "nonum", analysis := { pageNumber := none } }

def hintA : DocxGenerationData :=
  { originalFileName := "hintA", analysis := { pageNumber := some 2 } }

def hintB : DocxGenerationData :=
  { originalFileName := "hintB", analysis := { pageNumber := some 1 } }

def dupP0 : DocxGenerationData :=
  { originalFileName := "dup0", analysis := { pageNumber := some 2 } }

def dupP1 : DocxGenerationData :=
  { originalFileName := "dup1", analysis := { pageNumber := some 1 } }

def wpage0 : DocxGenerationData :=
  { originalFileName := "w0", analysis := { pageNumber := some 2 } }

def wpage1 : DocxGenerationData :=
  { originalFileName := "w1", analysis := { pageNumber := some 1 } }

theorem intOfNat_not_neg (k : Nat) : ¬ ((Int.ofNat k) < 0) := by
  rw [Int.ofNat_eq_natCast]
  omega

/- ### Claim C1 -/

/-- Claim C1 (amended): `reorderPagesByContent` performs no validation of the
returned hint; instead, in-range hint entries select pages in hint order
(duplicates included as often as they occur), out-of-range entries are
skipped, and pages whose index is absent from the hint are appended in
original order. The deterministic fallback sort runs only when the ranking
call throws. A hint that is a genuine permutation of `[0, n)` does reorder
the pages exactly according to the permutation. -/
theorem reorder_hint_validation (pages : List DocxGenerationData) (ids : List Int)
    (hlen : 2 ≤ pages.length)
    (hperm : ids.Perm ((List.range pages.length).map Int.ofNat)) :
    reorderPagesByContent pages (RankResponse.hint ids) =
        ids.map (fun i => pages.getD i.toNat default)
  ∧ reorderPagesByContent pages RankResponse.failure = jsSortByKey pages := by
  have hn : ¬ pages.length ≤ 1 := by omega
  constructor
  · have hmem : ∀ i ∈ ids, ∃ k, k < pages.length ∧ i = Int.ofNat k := by
      intro i hi
      have := hperm.mem_iff.mp hi
      rcases List.mem_map.mp this with ⟨k, hk, rfl⟩
      exact ⟨k, List.mem_range.mp hk, rfl⟩
    have hmem2 : ∀ k, k < pages.length → Int.ofNat k ∈ ids := by
      intro k hk
      exact hperm.mem_iff.mpr (List.mem_map_of_mem _ (List.mem_range.mpr hk))
    have hru : reorderPagesByContent pages (RankResponse.hint ids) =
        applyHint pages ids := by
      unfold reorderPagesByContent
      rw [if_neg hn]
    rw [hru]
    unfold applyHint
    have h1 : ids.filterMap (fun id => jsIndex pages id) =
        ids.map (fun i => pages.getD i.toNat default) := by
      apply filterMap_eq_map_of_some
      intro i hi
      rcases hmem i hi with ⟨k, hk, rfl⟩
      simp [jsIndex, intOfNat_not_neg k, List.getD_eq_getElem?_getD,
        List.getElem?_eq_getElem hk]
    have h2 : (List.range pages.length).filterMap
        (fun idx => if (Int.ofNat idx) ∈ ids then none else pages[idx]?) = [] := by
      apply List.filterMap_eq_nil_iff.mpr
      intro idx hidx
      rw [if_pos (hmem2 idx (List.mem_range.mp hidx))]
    rw [h1, h2, List.append_nil]
  · unfold reorderPagesByContent
    rw [if_neg hn]

/-- Claim C1, counterexample to the claim as stated: the duplicate-containing
hint `[0, 0]` over two pages is not rejected and the fallback sort is not
used; the output duplicates the first page. -/
theorem reorder_hint_validation_cex :
    reorderPagesByContent [dupP0, dupP1] (RankResponse.hint [0, 0]) =
        [dupP0, dupP0, dupP1]
  ∧ reorderPagesByContent [dupP0, dupP1] (RankResponse.hint [0, 0]) ≠
      jsSortByKey [dupP0, dupP1] := by decide

/-- Claim C1, witness: the amended theorem applied to two concrete pages and
the valid permutation hint `[1, 0]`. -/
theorem reorder_hint_validation_wit :
    2 ≤ ([wpage0, wpage1] : List DocxGenerationData).length
  ∧ ([1, 0] : List Int).Perm
      ((List.range ([wpage0, wpage1] : List DocxGenerationData).length).map Int.ofNat)
  ∧ (reorderPagesByContent [wpage0, wpage1] (RankResponse.hint [1, 0]) =
        ([1, 0] : List Int).map
          (fun i => ([wpage0, wpage1] : List DocxGenerationData).getD i.toNat default)
      ∧ reorderPagesByContent [wpage0, wpage1] RankResponse.failure =
          jsSortByKey [wpage0, wpage1]) :=
  ⟨by decide, by decide,
    reorder_hint_validation [wpage0, wpage1] [1, 0] (by decide) (by decide)⟩

/- ### Claim C2 -/

/-- Claim C2 (amended): when the ranking call throws, `reorderPagesByContent`
returns the pages stably sorted ascending by the key "detected page number,
with `999` substituted when the number is absent (or `0`, by JS falsiness)";
ties are broken by original sequence index, i.e. the enumerated output is
sorted by the lexicographic relation `lexKeyLe`. For three pages with
detected numbers `[3, 1, 2]` the output is the pages at original indices
`[1, 2, 0]`. (The `999` sentinel is not maximal, and an invalid hint does
not trigger this fallback.) -/
theorem reorder_fallback (pages : List DocxGenerationData) :
    reorderPagesByContent pages RankResponse.failure = jsSortByKey pages
  ∧ (jsSortByKey pages).Perm pages
  ∧ jsSortByKey pages = (sortLe lexKeyLe pages.enum).map Prod.snd
  ∧ (sortLe lexKeyLe pages.enum).Pairwise (fun x y => lexKeyLe x y = true)
  ∧ reorderPagesByContent [demoP0, demoP1, demoP2] RankResponse.failure =
      [demoP1, demoP2, demoP0] := by
  refine ⟨?_, sortLe_perm keyLe pages, ?_,
    pairwise_sortLe lexKeyLe lexKeyLe_total lexKeyLe_trans _, by decide⟩
  · unfold reorderPagesByContent
    split
    · rename_i h
      exact (sortLe_short keyLe pages h).symm
    · rfl
  · exact (map_snd_sortLe_enumFrom pages 0).symm

/-- Claim C2, counterexample to the claim as stated: (i) a page with detected
number `1000` sorts after a page lacking a number, so the sentinel is not
effectively maximal and undetected pages need not sort last; (ii) an invalid
hint (wrong length) does not produce the fallback order. -/
theorem reorder_fallback_cex :
    reorderPagesByContent [bigNumPage, noNumPage] RankResponse.failure =
        [noNumPage, bigNumPage]
  ∧ ([noNumPage, bigNumPage] : List DocxGenerationData) ≠ [bigNumPage, noNumPage]
  ∧ reorderPagesByContent [hintA, hintB] (RankResponse.hint [0]) = [hintA, hintB]
  ∧ jsSortByKey [hintA, hintB] = [hintB, hintA]
  ∧ reorderPagesByContent [hintA, hintB] (RankResponse.hint [0]) ≠
      jsSortByKey [hintA, hintB] := by decide

/- ### Claim C10 -/

/-- Claim C10: whatever integer array the ranking collaborator returns (any
length, out-of-range values, duplicates), and in the error and empty-response
branches too, every input page occurs in the output of
`reorderPagesByContent` at least once: no page is ever dropped. -/
theorem reorder_complete (pages : List DocxGenerationData) (resp : RankResponse)
    (p : DocxGenerationData) (hmem : p ∈ pages) :
    p ∈ reorderPagesByContent pages resp := by
  unfold reorderPagesByContent
  split
  · exact hmem
  · cases resp with
    | noText => exact hmem
    | failure => exact ((sortLe_perm keyLe pages).mem_iff).mpr hmem
    | hint ids =>
      rcases List.getElem_of_mem hmem with ⟨k, hk, hpk⟩
      by_cases hin : (Int.ofNat k) ∈ ids
      · refine List.mem_append_left _ ?_
        refine List.mem_filterMap.mpr ⟨Int.ofNat k, hin, ?_⟩
        unfold jsIndex
        rw [if_neg (intOfNat_not_neg k)]
        show pages[k]? = some p
        rw [List.getElem?_eq_getElem hk, hpk]
      · refine List.mem_append_right _ ?_
        refine List.mem_filterMap.mpr ⟨k, List.mem_range.mpr hk, ?_⟩
        rw [if_neg hin, List.getElem?_eq_getElem hk, hpk]

/-- Claim C10, witness: a junk hint (out-of-range and negative entries) still
keeps the first page in the output. -/
theorem reorder_complete_wit :
    wpage0 ∈ ([wpage0, wpage1] : List DocxGenerationData)
  ∧ wpage0 ∈ reorderPagesByContent [wpage0, wpage1] (RankResponse.hint [5, -1]) :=
  ⟨by decide,
    reorder_complete [wpage0, wpage1] (RankResponse.hint [5, -1]) wpage0 (by decide)⟩

/- ### Region Cropper (cropImageFromBlob, src/utils/pdfUtils.ts) -/

/-- The fixed padding of `cropImageFromBlob`. -/
def cropPadding : ℚ := 5

/-- The clamped, padded pixel rectangle `(finalX, finalY, finalW, finalH)`
computed inside `cropImageFromBlob` from the 0-1000 normalized box. -/
structure PaddedRect where
  x : ℚ
  y : ℚ
  w : ℚ
  h : ℚ
deriving DecidableEq

/-- `Math.max` on exact values. -/
def jsMax (a b : ℚ) : ℚ := if a ≤ b then b else a

/-- `Math.min` on exact values. -/
def jsMin (a b : ℚ) : ℚ := if a ≤ b then a else b

/-- `pixelX = (xmin/1000)*width`, dually for y/w/h, then 5-pixel padding
clamped at the image borders, exactly as in `cropImageFromBlob`. -/
def paddedRect (b : Blob) (ymin xmin ymax xmax : ℚ) : PaddedRect :=
  { x := jsMax 0 (xmin / 1000 * b.width - cropPadding)
    y := jsMax 0 (ymin / 1000 * b.height - cropPadding)
    w := jsMin (b.width - jsMax 0 (xmin / 1000 * b.width - cropPadding))
          ((xmax - xmin) / 1000 * b.width + cropPadding * 2)
    h := jsMin (b.height - jsMax 0 (ymin / 1000 * b.height - cropPadding))
          ((ymax - ymin) / 1000 * b.height + cropPadding * 2) }

/-- Result of `cropImageFromBlob`: either the source blob returned unchanged
(the early exit for a missing/short box), or a PNG re-encode of the given
pixel rectangle of the source. -/
inductive CropBlobResult
  | source (b : Blob)
  | encoded (src : Blob) (x y w h : ℚ)
deriving DecidableEq

/-- The canvas export format of `cropImageFromBlob`: `canvas.toBlob(..., 'image/png')`. -/
def pngMime : String := "image/png"

/-- Container format of the value `cropImageFromBlob` resolves with. -/
def CropBlobResult.mime : CropBlobResult → String
  | CropBlobResult.source b => b.mime
  | CropBlobResult.encoded _ _ _ _ _ => pngMime

/-- `cropImageFromBlob` of src/utils/pdfUtils.ts, with the decoded image and
the canvas modelled by `Blob` dimensions and an output rectangle. -/
def cropImageFromBlob (sourceBlob : Blob) (box : List ℚ) : CropBlobResult :=
  match box with
  | ymin :: xmin :: ymax :: xmax :: _ =>
    if (paddedRect sourceBlob ymin xmin ymax xmax).w ≤ 0 ∨
        (paddedRect sourceBlob ymin xmin ymax xmax).h ≤ 0 then
      CropBlobResult.encoded sourceBlob 0 0 sourceBlob.width sourceBlob.height
    else
      CropBlobResult.encoded sourceBlob
        (paddedRect sourceBlob ymin xmin ymax xmax).x
        (paddedRect sourceBlob ymin xmin ymax xmax).y
        (paddedRect sourceBlob ymin xmin ymax xmax).w
        (paddedRect sourceBlob ymin xmin ymax xmax).h
  | _ => CropBlobResult.source sourceBlob

/-- A 1000x1000 JPEG source raster used in the closed crop statements. -/
def testBlob : Blob := { mime := "image/jpeg", width := 1000, height := 1000 }

/- ### Claim C3 -/

/-- Claim C3 (amended): for every 4-element box whose padded pixel rectangle
has non-positive width or height, `cropImageFromBlob` crops the entire source
image instead of failing; in particular the ordering-violating box
`[500,500,400,400]` yields a result equal to cropping `[0,0,1000,1000]` on a
1000x1000 source. (Not every box violating `ymin<ymax`/`xmin<xmax` falls in
this degenerate class: a violation smaller in pixels than the 10-pixel
padding compensation still crops a small positive rectangle.) -/
theorem crop_degenerate (b : Blob) (ymin xmin ymax xmax : ℚ) (rest : List ℚ)
    (hdeg : (paddedRect b ymin xmin ymax xmax).w ≤ 0 ∨
      (paddedRect b ymin xmin ymax xmax).h ≤ 0) :
    cropImageFromBlob b (ymin :: xmin :: ymax :: xmax :: rest) =
        CropBlobResult.encoded b 0 0 b.width b.height
  ∧ cropImageFromBlob testBlob [500, 500, 400, 400] =
      cropImageFromBlob testBlob [0, 0, 1000, 1000] := by
  refine ⟨?_,
    by norm_num [cropImageFromBlob, paddedRect, jsMin, jsMax, cropPadding, testBlob]⟩
  show (if (paddedRect b ymin xmin ymax xmax).w ≤ 0 ∨
        (paddedRect b ymin xmin ymax xmax).h ≤ 0 then
      CropBlobResult.encoded b 0 0 b.width b.height
    else
      CropBlobResult.encoded b
        (paddedRect b ymin xmin ymax xmax).x
        (paddedRect b ymin xmin ymax xmax).y
        (paddedRect b ymin xmin ymax xmax).w
        (paddedRect b ymin xmin ymax xmax).h) =
    CropBlobResult.encoded b 0 0 b.width b.height
  rw [if_pos hdeg]

/-- Claim C3, counterexample to the claim as stated: the box
`[500,500,499,499]` violates both `ymin<ymax` and `xmin<xmax`, yet on a
1000x1000 source its padded rectangle is a positive 9x9 square, so the code
crops that square and not the entire image. -/
theorem crop_degenerate_cex :
    cropImageFromBlob testBlob [500, 500, 499, 499] =
        CropBlobResult.encoded testBlob 495 495 9 9
  ∧ cropImageFromBlob testBlob [500, 500, 499, 499] ≠
      CropBlobResult.encoded testBlob 0 0 testBlob.width testBlob.height := by
  constructor
  · norm_num [cropImageFromBlob, paddedRect, jsMin, jsMax, cropPadding, testBlob]
  · norm_num [cropImageFromBlob, paddedRect, jsMin, jsMax, cropPadding, testBlob]

/-- Claim C3, witness: the degenerate box `[500,500,400,400]` on the
1000x1000 source satisfies the hypothesis and crops the full image. -/
theorem crop_degenerate_wit :
    ((paddedRect testBlob 500 500 400 400).w ≤ 0 ∨
      (paddedRect testBlob 500 500 400 400).h ≤ 0)
  ∧ (cropImageFromBlob testBlob (500 :: 500 :: 400 :: 400 :: []) =
        CropBlobResult.encoded testBlob 0 0 testBlob.width testBlob.height
      ∧ cropImageFromBlob testBlob [500, 500, 400, 400] =
          cropImageFromBlob testBlob [0, 0, 1000, 1000]) :=
  ⟨by norm_num [paddedRect, jsMin, jsMax, cropPadding, testBlob],
    crop_degenerate testBlob 500 500 400 400 []
      (by norm_num [paddedRect, jsMin, jsMax, cropPadding, testBlob])⟩

/- ### Claim C8 -/

/-- Claim C8 (amended): whenever the bounding box has at least 4 entries, the
output of `cropImageFromBlob` is a PNG (lossless) re-encode regardless of the
source format; a missing or shorter box takes the early exit that returns the
source blob unchanged, in its original format. -/
theorem crop_png (b : Blob) (box : List ℚ) :
    (4 ≤ box.length → (cropImageFromBlob b box).mime = pngMime)
  ∧ (box.length < 4 → cropImageFromBlob b box = CropBlobResult.source b) := by
  constructor
  · intro h
    match box, h with
    | y1 :: x1 :: y2 :: x2 :: rest, _ =>
      show ((if (paddedRect b y1 x1 y2 x2).w ≤ 0 ∨ (paddedRect b y1 x1 y2 x2).h ≤ 0 then
          CropBlobResult.encoded b 0 0 b.width b.height
        else
          CropBlobResult.encoded b (paddedRect b y1 x1 y2 x2).x
            (paddedRect b y1 x1 y2 x2).y (paddedRect b y1 x1 y2 x2).w
            (paddedRect b y1 x1 y2 x2).h) : CropBlobResult).mime = pngMime
      split <;> rfl
  · intro h
    match box, h with
    | [], _ => rfl
    | [a1], _ => rfl
    | [a1, a2], _ => rfl
    | [a1, a2, a3], _ => rfl
    | a1 :: a2 :: a3 :: a4 :: rest, h =>
      exact absurd h (by simp only [List.length_cons]; omega)

/-- Claim C8, counterexample to the claim as stated: with an empty bounding
box the JPEG source blob is passed through unchanged, so the output is not a
PNG. -/
theorem crop_png_cex :
    (cropImageFromBlob testBlob []).mime = "image/jpeg"
  ∧ (cropImageFromBlob testBlob []).mime ≠ pngMime := by decide

/-- Claim C8, witness: a well-formed 4-element box produces a PNG result. -/
theorem crop_png_wit :
    4 ≤ ([0, 0, 1000, 1000] : List ℚ).length
  ∧ (cropImageFromBlob testBlob [0, 0, 1000, 1000]).mime = pngMime :=
  ⟨by decide, (crop_png testBlob [0, 0, 1000, 1000]).1 (by decide)⟩

/- ### Page Extractor for PDFs (convertPdfToImages, src/utils/pdfUtils.ts) -/

/-- The fixed render quality of `page.getViewport({ scale: 2.0 })`. -/
def renderScale : ℚ := 2

/-- The message of the error thrown when no page could be rasterized. -/
def extractionFailureMsg : String := "Не удалось извлечь страницы из PDF"

/-- `convertPdfToImages` of src/utils/pdfUtils.ts over a successfully opened
document: `pageRenders` lists, in page order, the outcome of each page's
render-and-export attempt (`none` when the attempt threw, produced no
context, or exported a null blob; such pages are only logged and skipped). -/
def convertPdfToImages (pageRenders : List (Option Blob)) :
    Except String (List Blob) :=
  if (pageRenders.filterMap id).isEmpty then Except.error extractionFailureMsg
  else Except.ok (pageRenders.filterMap id)

/- ### Claim C6 -/

/-- Claim C6: `convertPdfToImages` renders pages sequentially at scale 2.0; a
single page failure only skips that page; the call throws exactly when every
page failed (zero usable pages), and otherwise returns one raster per
successfully rendered page, in page order. -/
theorem convertPdf_spec (rs : List (Option Blob)) :
    ((∃ e, convertPdfToImages rs = Except.error e) ↔ ∀ r ∈ rs, r = none)
  ∧ (∀ bs, convertPdfToImages rs = Except.ok bs → bs = rs.filterMap id)
  ∧ renderScale = 2 := by
  refine ⟨⟨?_, ?_⟩, ?_, rfl⟩
  · rintro ⟨e, he⟩
    unfold convertPdfToImages at he
    split at he
    · rename_i hemp
      rw [List.isEmpty_iff] at hemp
      intro r hr
      exact List.filterMap_eq_nil_iff.mp hemp r hr
    · exact absurd he (by simp)
  · intro hall
    have hnil : rs.filterMap id = [] :=
      List.filterMap_eq_nil_iff.mpr (fun a ha => by rw [hall a ha]; rfl)
    refine ⟨extractionFailureMsg, ?_⟩
    unfold convertPdfToImages
    rw [hnil]
    rfl
  · intro bs hbs
    unfold convertPdfToImages at hbs
    split at hbs
    · exact absurd hbs (by simp)
    · exact (Except.ok.inj hbs).symm

/-- A raster page used in the extraction witness. -/
def pdfBlobA : Blob := { mime := "image/jpeg", width := 100, height := 100, tag := 1 }

/-- Claim C6, witness: one successful and one failed page render produce an
`ok` with exactly the successful raster. -/
theorem convertPdf_wit :
    convertPdfToImages [some pdfBlobA, none] = Except.ok [pdfBlobA]
  ∧ [pdfBlobA] = ([some pdfBlobA, none] : List (Option Blob)).filterMap id :=
  ⟨rfl, (convertPdf_spec [some pdfBlobA, none]).2.1 [pdfBlobA] rfl⟩

/- ### Image rotation (processImageWithRotation, src geminiService) -/

/-- A standalone image `File`: name, container format, decoded dimensions,
and a byte-payload identity tag. -/
structure ImgFile where
  name : String
  mime : String
  width : ℚ
  height : ℚ
  tag : Nat := 0
deriving DecidableEq

/-- `Math.cos(deg * PI / 180)`, exact at the app's rotation values
0/90/180/270 (the `rotation` field only ever cycles through these). -/
def rotCos (deg : Nat) : ℚ :=
  if deg = 90 then 0 else if deg = 180 then -1 else if deg = 270 then 0 else 1

/-- `Math.sin(deg * PI / 180)` at the app's rotation values. -/
def rotSin (deg : Nat) : ℚ :=
  if deg = 90 then 1 else if deg = 180 then 0 else if deg = 270 then -1 else 0

/-- Canvas width chosen by `processImageWithRotation`: swapped for 90/270. -/
def rotCanvasW (f : ImgFile) (deg : Nat) : ℚ :=
  if deg = 90 ∨ deg = 270 then f.height else f.width

/-- Canvas height chosen by `processImageWithRotation`: swapped for 90/270. -/
def rotCanvasH (f : ImgFile) (deg : Nat) : ℚ :=
  if deg = 90 ∨ deg = 270 then f.width else f.height

/-- Where the canvas transform `translate(cw/2, ch/2); rotate(theta);
drawImage(img, -iw/2, -ih/2)` places an image-space point `p`. -/
def rotTransform (f : ImgFile) (deg : Nat) (p : ℚ × ℚ) : ℚ × ℚ :=
  (rotCanvasW f deg / 2 + rotCos deg * (p.1 - f.width / 2) -
      rotSin deg * (p.2 - f.height / 2),
    rotCanvasH f deg / 2 + rotSin deg * (p.1 - f.width / 2) +
      rotCos deg * (p.2 - f.height / 2))

/-- Result of `processImageWithRotation`: the untouched input `File` object
(rotation 0), or a re-export of the rotated canvas carrying the original name
and mime type. -/
inductive RotOutput
  | passthrough (f : ImgFile)
  | canvasFile (name mime : String) (w h : ℚ) (deg : Nat) (src : ImgFile)
deriving DecidableEq

/-- `processImageWithRotation` of src geminiService. -/
def processImageWithRotation (f : ImgFile) (deg : Nat) : RotOutput :=
  if deg = 0 then RotOutput.passthrough f
  else RotOutput.canvasFile f.name f.mime (rotCanvasW f deg) (rotCanvasH f deg) deg f

/- ### Claim C9 -/

/-- Claim C9: rotation 0 returns the input file object itself (byte-identical
passthrough); rotations 90 and 270 swap the canvas dimensions; and the canvas
transform maps the image center to the canvas center, i.e. the rotation is
applied around the image center. -/
theorem rotation_spec (f : ImgFile) (deg : Nat) :
    processImageWithRotation f 0 = RotOutput.passthrough f
  ∧ ((deg = 90 ∨ deg = 270) →
      rotCanvasW f deg = f.height ∧ rotCanvasH f deg = f.width)
  ∧ rotTransform f deg (f.width / 2, f.height / 2) =
      (rotCanvasW f deg / 2, rotCanvasH f deg / 2) := by
  refine ⟨rfl, ?_, ?_⟩
  · intro h
    constructor
    · unfold rotCanvasW
      exact if_pos h
    · unfold rotCanvasH
      exact if_pos h
  · simp [rotTransform]

/-- A 30x20 image used in the rotation witness. -/
def sampleImg : ImgFile := { name := "s.jpg", mime := "image/jpeg", width := 30, height := 20 }

/-- Claim C9, witness: a 90-degree rotation of a 30x20 image swaps the canvas
to 20x30. -/
theorem rotation_wit :
    ((90 : Nat) = 90 ∨ (90 : Nat) = 270)
  ∧ (rotCanvasW sampleImg 90 = sampleImg.height
      ∧ rotCanvasH sampleImg 90 = sampleImg.width) :=
  ⟨Or.inl rfl, (rotation_spec sampleImg 90).2.1 (Or.inl rfl)⟩

/- ### Summary Orchestrator (processFolders phase 3 and generateSummary) -/

/-- The control characters stripped by `sanitizeText` (src geminiService):
the regex class x00-x08, x0B, x0C, x0E-x1F. -/
def strippedControl (c : Char) : Bool :=
  c.toNat ≤ 0x08 || c.toNat = 0x0B || c.toNat = 0x0C ||
    (0x0E ≤ c.toNat && c.toNat ≤ 0x1F)

/-- JS `String.prototype.trim`: drop whitespace at both ends. -/
def jsTrim (cs : List Char) : List Char :=
  ((cs.dropWhile Char.isWhitespace).reverse.dropWhile Char.isWhitespace).reverse

/-- `sanitizeText` of src geminiService: strip the control class, then trim. -/
def sanitizeText (cs : List Char) : List Char :=
  jsTrim (cs.filter (fun c => !strippedControl c))

/-- The summary-input filter of `processFolders` phase 3:
`b.type !== 'image_crop' && b.type !== 'table_crop'`; every other type,
`formula_crop` included, is kept. -/
def summaryEligible (b : ContentBlock) : Bool :=
  !(b.type == BlockType.image_crop) && !(b.type == BlockType.table_crop)

/-- The `fullText` of `processFolders` phase 3: per ordered page, the text of
eligible blocks joined with single spaces, pages joined with a blank line. -/
def fullTextOf (pages : List DocxGenerationData) : List Char :=
  List.intercalate ('\n' :: '\n' :: [])
    (pages.map (fun p =>
      List.intercalate (' ' :: [])
        ((p.analysis.blocks.filter summaryEligible).map ContentBlock.text)))

/-- The `substring(0, 60000)` character budget of `generateSummary`. -/
def summaryLimit : Nat := 60000

/-- The text interpolated into the summarization prompt:
`sanitizeText(fullText.substring(0, 60000))`. -/
def summaryInputSent (pages : List DocxGenerationData) : List Char :=
  sanitizeText ((fullTextOf pages).take summaryLimit)

theorem dropWhile_length_le {α : Type _} (p : α → Bool) :
    ∀ l : List α, (l.dropWhile p).length ≤ l.length := by
  intro l
  induction l with
  | nil => simp [List.dropWhile]
  | cons x xs ih =>
    rw [List.dropWhile_cons]
    split
    · exact Nat.le_succ_of_le ih
    · exact Nat.le_refl _

theorem jsTrim_length_le (cs : List Char) : (jsTrim cs).length ≤ cs.length := by
  unfold jsTrim
  calc ((cs.dropWhile Char.isWhitespace).reverse.dropWhile
          Char.isWhitespace).reverse.length
      = ((cs.dropWhile Char.isWhitespace).reverse.dropWhile
          Char.isWhitespace).length := List.length_reverse _
    _ ≤ (cs.dropWhile Char.isWhitespace).reverse.length :=
        dropWhile_length_le _ _
    _ = (cs.dropWhile Char.isWhitespace).length := List.length_reverse _
    _ ≤ cs.length := dropWhile_length_le _ _

theorem sanitizeText_length_le (cs : List Char) :
    (sanitizeText cs).length ≤ cs.length :=
  le_trans (jsTrim_length_le _) (List.length_filter_le _ _)

/- ### Claim C5 -/

/-- Claim C5: the summary input is built, in final reading order, from
exactly those blocks whose type is neither `image_crop` nor `table_crop`
(`formula_crop` text is included), joined with single spaces within a page
and a blank line between pages, and what is sent to the summarization
collaborator is at most 60000 characters. -/
theorem summary_text_spec (pages : List DocxGenerationData) :
    fullTextOf pages =
      List.intercalate ('\n' :: '\n' :: [])
        (pages.map (fun p =>
          List.intercalate (' ' :: [])
            ((p.analysis.blocks.filter summaryEligible).map ContentBlock.text)))
  ∧ (∀ b : ContentBlock, summaryEligible b = true ↔
      (b.type ≠ BlockType.image_crop ∧ b.type ≠ BlockType.table_crop))
  ∧ (∀ b : ContentBlock, b.type = BlockType.formula_crop →
      summaryEligible b = true)
  ∧ (summaryInputSent pages).length ≤ summaryLimit := by
  refine ⟨rfl, ?_, ?_, ?_⟩
  · intro b
    unfold summaryEligible
    cases b.type <;> simp
  · intro b hb
    unfold summaryEligible
    rw [hb]
    rfl
  · refine le_trans (sanitizeText_length_le _) ?_
    rw [List.length_take]
    exact min_le_left _ _

/-- A formula block used in the summary witness. -/
def formulaBlock : ContentBlock := { type := BlockType.formula_crop, text := ['x'] }

/-- Claim C5, witness: a `formula_crop` block passes the summary filter. -/
theorem summary_text_wit :
    formulaBlock.type = BlockType.formula_crop
  ∧ summaryEligible formulaBlock = true :=
  ⟨rfl, (summary_text_spec []).2.2.1 formulaBlock rfl⟩

/- ### Folder Ingestor (handleFileInputChange, src/App.tsx; src/utils/sortUtils.ts) -/

/-- A raw browser `File` from the directory input: display name,
`webkitRelativePath`, byte size, MIME type. -/
structure RawFile where
  name : String
  path : String
  size : Nat
  mime : String
deriving DecidableEq

/-- Case folding used by the case-insensitive extension regexes. -/
def lowerChars (cs : List Char) : List Char := cs.map Char.toLower

/-- Suffix test on character lists (the `$`-anchored extension regexes). -/
def endsWithList (s suf : List Char) : Bool :=
  decide (suf.length ≤ s.length) && decide (s.drop (s.length - suf.length) = suf)

/-- Initial-segment test on character lists (`mime.startsWith`). -/
def beginsWithList (s first : List Char) : Bool :=
  decide (s.take first.length = first)

/-- The extension allow-list of the regex in `isImage` (sortUtils):
`jpg/jpeg/png/tif/tiff/bmp`. -/
def imageExts : List String := [".jpg", ".jpeg", ".png", ".tif", ".tiff", ".bmp"]

/-- `isImage` of src/utils/sortUtils.ts. -/
def isImageFile (f : RawFile) : Bool :=
  beginsWithList f.mime.data "image/".data ||
    imageExts.any (fun e => endsWithList (lowerChars f.name.data) e.data)

/-- `isPdf` of src/utils/sortUtils.ts. -/
def isPdfFile (f : RawFile) : Bool :=
  f.mime == "application/pdf" || endsWithList (lowerChars f.name.data) ".pdf".data

/-- JS `String.prototype.split` with a one-character separator. -/
def splitOnCharAux (sep : Char) : List Char → List Char → List (List Char)
  | [], acc => [acc.reverse]
  | c :: rest, acc =>
    if c = sep then acc.reverse :: splitOnCharAux sep rest []
    else splitOnCharAux sep rest (c :: acc)

/-- JS `path.split('/')`. -/
def splitOnChar (sep : Char) (cs : List Char) : List (List Char) :=
  splitOnCharAux sep cs []

/-- The grouping key of `handleFileInputChange`: the second-to-last path
segment (`pathParts[pathParts.length - 2]`), or `Root` when the path has no
parent segment. -/
def folderNameOf (f : RawFile) : List Char :=
  if (splitOnChar '/' f.path.data).length > 1 then
    (splitOnChar '/' f.path.data).getD
      ((splitOnChar '/' f.path.data).length - 2) []
  else "Root".data

/-- `FileItem` of src/types.ts as created at ingestion. -/
structure FileItem where
  id : List Char
  name : String
  path : String
  kind : SourceKind
  selected : Bool
  rotation : Nat
deriving DecidableEq

/-- The `FileItem` literal pushed by `handleFileInputChange`; the identifier
is the string `folderName ++ "_" ++ name ++ "_" ++ size`. -/
def mkFileItem (folder : List Char) (f : RawFile) : FileItem :=
  { id := folder ++ "_".data ++ f.name.data ++ "_".data ++ (Nat.repr f.size).data
    name := f.name
    path := f.path
    kind := if isPdfFile f then SourceKind.pdf else SourceKind.image
    selected := true
    rotation := 0 }

/-- Insertion into the `groups` record; JS objects keep string keys in
insertion order, so the record is an association list, and a file whose key
already exists is pushed at the end of that key's array. -/
def pushGroup (gs : List (List Char × List FileItem)) (key : List Char)
    (item : FileItem) : List (List Char × List FileItem) :=
  match gs with
  | [] => [(key, [item])]
  | (k, items) :: rest =>
    if k = key then (k, items ++ [item]) :: rest
    else (k, items) :: pushGroup rest key item

/-- The grouping loop of `handleFileInputChange` over the raw file list,
silently discarding files that are neither images nor PDFs. -/
def ingestGroups (files : List RawFile) : List (List Char × List FileItem) :=
  files.foldl
    (fun gs f =>
      if isImageFile f || isPdfFile f then
        pushGroup gs (folderNameOf f) (mkFileItem (folderNameOf f) f)
      else gs) []

/-- `FolderGroup.status` of src/types.ts. -/
inductive FolderStatus
  | pending
  | processing
  | completed
  | error
deriving DecidableEq

/-- `FolderGroup` of src/types.ts; `resultDoc` models `resultDocBlob`. -/
structure FolderGroup where
  folderName : List Char
  files : List FileItem
  status : FolderStatus
  resultDoc : Option Nat := none

/-- `naturalSort` of src/utils/sortUtils.ts keyed by display name: a stable
sort under the `Intl.Collator` comparator; the collator itself is
locale-provided, hence a parameter. -/
def naturalSort (collatorLe : String → String → Bool) (xs : List FileItem) :
    List FileItem :=
  sortLe (fun a b => collatorLe a.name b.name) xs

/-- `handleFileInputChange` of src/App.tsx: group accepted files by parent
folder, naturally sort each group, and create pending `FolderGroup`s. -/
def handleFileInputChange (collatorLe : String → String → Bool)
    (files : List RawFile) : List FolderGroup :=
  (ingestGroups files).map (fun g =>
    { folderName := g.1
      files := naturalSort collatorLe g.2
      status := FolderStatus.pending })

/-- Total number of file entries across grouped association-list entries. -/
def totalPairs (gs : List (List Char × List FileItem)) : Nat :=
  (gs.map (fun g => g.2.length)).sum

/-- Total number of file entries across folder batches. -/
def totalFiles (gs : List FolderGroup) : Nat :=
  (gs.map (fun g => g.files.length)).sum

theorem totalPairs_push (key : List Char) (item : FileItem) :
    ∀ gs, totalPairs (pushGroup gs key item) = totalPairs gs + 1 := by
  intro gs
  induction gs with
  | nil => simp [pushGroup, totalPairs]
  | cons g rest ih =>
    obtain ⟨k, items⟩ := g
    unfold pushGroup
    split
    · simp only [totalPairs, List.map_cons, List.sum_cons, List.length_append,
        List.length_cons, List.length_nil]
      omega
    · simp only [totalPairs, List.map_cons, List.sum_cons] at ih ⊢
      omega

theorem totalPairs_ingest (files : List RawFile) :
    ∀ gs, totalPairs (files.foldl (fun gs f =>
        if isImageFile f || isPdfFile f then
          pushGroup gs (folderNameOf f) (mkFileItem (folderNameOf f) f)
        else gs) gs) =
      totalPairs gs +
        (files.filter (fun x => isImageFile x || isPdfFile x)).length := by
  induction files with
  | nil => intro gs; simp
  | cons f rest ih =>
    intro gs
    simp only [List.foldl_cons, List.filter_cons]
    by_cases hacc : (isImageFile f || isPdfFile f) = true
    · rw [if_pos hacc, if_pos hacc, ih, totalPairs_push]
      simp only [List.length_cons]
      omega
    · rw [if_neg hacc, if_neg hacc, ih]

theorem totalFiles_handle (col : String → String → Bool) (files : List RawFile) :
    totalFiles (handleFileInputChange col files) = totalPairs (ingestGroups files) := by
  unfold totalFiles handleFileInputChange totalPairs
  rw [List.map_map]
  congr 1
  apply List.map_congr_left
  intro g _
  simp [naturalSort, length_sortLe]

/- ### Claim C4 -/

/-- Claim C4 (amended): files sharing identical (folder, name, byteSize)
compute identical identifiers, but the collision does not collapse: each
duplicate is pushed as a separate entry into the folder's array (every
accepted file contributes exactly one entry), so identifiers are not
necessarily unique within a run. -/
theorem ingest_id_spec (col : String → String → Bool) (files : List RawFile)
    (f g : RawFile) (hfolder : folderNameOf f = folderNameOf g)
    (hname : f.name = g.name) (hsize : f.size = g.size) :
    (mkFileItem (folderNameOf f) f).id = (mkFileItem (folderNameOf g) g).id
  ∧ totalFiles (handleFileInputChange col files) =
      (files.filter (fun x => isImageFile x || isPdfFile x)).length := by
  constructor
  · simp [mkFileItem, hfolder, hname, hsize]
  · rw [totalFiles_handle]
    unfold ingestGroups
    have h := totalPairs_ingest files []
    simpa [totalPairs] using h

/-- One of two distinct files with the same parent-folder name, display name
and size. -/
def dupA : RawFile := { name := "a.jpg", path := "r/x/a.jpg", size := 100, mime := "image/jpeg" }

/-- The other duplicate-keyed file (different grandparent directory). -/
def dupB : RawFile := { name := "a.jpg", path := "q/x/a.jpg", size := 100, mime := "image/jpeg" }

/-- Claim C4, counterexample to the claim as stated: two distinct accepted
files with identical (folder, name, byteSize) produce a folder whose list
keeps both entries, with equal identifiers — the collision does not collapse
to a single entry and identifiers are not unique. -/
theorem ingest_id_cex :
    ((handleFileInputChange (fun _ _ => true) [dupA, dupB]).map
        (fun g => g.files.length)) = [2]
  ∧ ((handleFileInputChange (fun _ _ => true) [dupA, dupB]).map
        (fun g => g.files.map (fun it => it.id))) =
      [["x_a.jpg_100".data, "x_a.jpg_100".data]] := by decide

/-- Claim C4, witness: the amended theorem at the two concrete duplicates. -/
theorem ingest_id_wit :
    folderNameOf dupA = folderNameOf dupB
  ∧ dupA.name = dupB.name
  ∧ dupA.size = dupB.size
  ∧ ((mkFileItem (folderNameOf dupA) dupA).id =
        (mkFileItem (folderNameOf dupB) dupB).id
      ∧ totalFiles (handleFileInputChange (fun _ _ => true) [dupA, dupB]) =
          (([dupA, dupB] : List RawFile).filter
            (fun x => isImageFile x || isPdfFile x)).length) :=
  ⟨by decide, rfl, rfl,
    ingest_id_spec (fun _ _ => true) [dupA, dupB] dupA dupB (by decide) rfl rfl⟩

/- ### Pipeline Orchestrator (processFolders, src/App.tsx) -/

/-- Phase 1 aggregate: the `docxPagesBuffer` collected over the selected
items, where each item's extraction-and-analysis attempt is an
`Except`: `ok` carries the pages the item contributed (one for an image, one
per rasterized page for a PDF) and `error` models the exception that the
per-item `try/catch` logs and swallows before continuing with the next
item. -/
def phase1Pages (results : List (Except String (List DocxGenerationData))) :
    List DocxGenerationData :=
  (results.filterMap Except.toOption).flatten

/-- The per-folder slice of the external world during one run: phase 1
outcomes for its selected items, the ranking response, the summary option and
collaborator output, and the DOCX serialization outcome as a function of the
assembled pages and optional summary. -/
structure FolderEnv where
  itemResults : List (Except String (List DocxGenerationData))
  rankResponse : RankResponse
  generateSummaryFlag : Bool
  summaryResult : List Char
  docxResult : List DocxGenerationData → Option (List Char) → Except String Nat

/-- The forward transitions of the FolderBatch state machine:
pending → processing → completed or error; everything else is backward. -/
def forwardStep : FolderStatus → FolderStatus → Bool
  | FolderStatus.pending, FolderStatus.processing => true
  | FolderStatus.processing, FolderStatus.completed => true
  | FolderStatus.processing, FolderStatus.error => true
  | _, _ => false

/-- Whether every pair of consecutive statuses of a trace is forward. -/
def forwardOk : List FolderStatus → Bool
  | a :: b :: rest => forwardStep a b && forwardOk (b :: rest)
  | _ => true

/-- One iteration of the folder loop of `processFolders`: the folder is
skipped (`continue`) when it has no selected files; otherwise its status is
set to `processing`, phases 1-3 run, and the DOCX attempt of phase 4 sets
`completed` (storing the artifact) or `error`. The second component is the
sequence of values the folder's status field takes during the iteration,
starting from its current value. -/
def processFolder (f : FolderGroup) (env : FolderEnv) :
    FolderGroup × List FolderStatus :=
  if (f.files.filter (fun x => x.selected)).length = 0 then (f, [f.status])
  else
    match env.docxResult
        (reorderPagesByContent (phase1Pages env.itemResults) env.rankResponse)
        (if env.generateSummaryFlag then some env.summaryResult else none) with
    | Except.ok tag =>
      ({ f with status := FolderStatus.completed, resultDoc := some tag },
        [f.status, FolderStatus.processing, FolderStatus.completed])
    | Except.error _ =>
      ({ f with status := FolderStatus.error },
        [f.status, FolderStatus.processing, FolderStatus.error])

/-- The folder loop of `processFolders`: folders are processed one at a time
in input order, each against its own slice of the environment, independently
of every other folder's outcome. -/
def processFolders (fs : List (FolderGroup × FolderEnv)) :
    List (FolderGroup × List FolderStatus) :=
  fs.map (fun fe => processFolder fe.1 fe.2)

/- ### Claim C7 -/

/-- Claim C7 (amended): during one run, a folder that starts `pending` only
moves forward along pending → processing → completed or error, and its
terminal state is not changed again within the run; a failed item inside a
folder is skipped without affecting the other items' contribution; and every
folder is processed from its own environment alone, so no folder is skipped
because another folder failed. (A later run over the same folders resets a
terminal status back to `processing`, which is what the counterexample
exhibits.) -/
theorem folder_status_spec (f : FolderGroup) (env : FolderEnv)
    (hp : f.status = FolderStatus.pending) :
    forwardOk (processFolder f env).2 = true
  ∧ (∀ xs ys (e : String),
      phase1Pages (xs ++ Except.error e :: ys) = phase1Pages (xs ++ ys))
  ∧ (∀ fs : List (FolderGroup × FolderEnv), ∀ k : Nat,
      (processFolders fs)[k]? =
        (fs[k]?).map (fun fe => processFolder fe.1 fe.2)) := by
  refine ⟨?_, ?_, ?_⟩
  · unfold processFolder
    split
    · rfl
    · split
      · rw [hp]
        rfl
      · rw [hp]
        rfl
  · intro xs ys e
    simp [phase1Pages, List.filterMap_append, List.filterMap_cons, Except.toOption]
  · intro fs k
    simp [processFolders, List.getElem?_map]

/-- A selected image item for the orchestrator statements. -/
def selItem : FileItem :=
  { id := "F_a.jpg_1".data, name := "a.jpg", path := "F/a.jpg",
    kind := SourceKind.image, selected := true, rotation := 0 }

/-- A folder whose previous run already finished. -/
def doneFolder : FolderGroup :=
  { folderName := "F".data, files := [selItem], status := FolderStatus.completed }

/-- An environment in which every phase trivially succeeds. -/
def okEnv : FolderEnv :=
  { itemResults := [], rankResponse := RankResponse.failure,
    generateSummaryFlag := false, summaryResult := [],
    docxResult := fun _ _ => Except.ok 0 }

/-- Claim C7, counterexample to the claim as stated: pressing the process
button again runs `processFolders` over the retained folders, and a folder
already in the terminal `completed` state transitions again — its status
trace during that run starts with the backward step completed → processing. -/
theorem folder_status_cex :
    (processFolder doneFolder okEnv).2 =
      [FolderStatus.completed, FolderStatus.processing, FolderStatus.completed]
  ∧ forwardOk (processFolder doneFolder okEnv).2 = false :=
  ⟨rfl, rfl⟩

/-- A freshly ingested folder, as `handleFileInputChange` creates them. -/
def pendFolder : FolderGroup :=
  { folderName := "G".data, files := [selItem], status := FolderStatus.pending }

/-- Claim C7, witness: the amended theorem at a pending folder with a
trivially succeeding environment. -/
theorem folder_status_wit :
    pendFolder.status = FolderStatus.pending
  ∧ (forwardOk (processFolder pendFolder okEnv).2 = true
      ∧ (∀ xs ys (e : String),
          phase1Pages (xs ++ Except.error e :: ys) = phase1Pages (xs ++ ys))
      ∧ (∀ fs : List (FolderGroup × FolderEnv), ∀ k : Nat,
          (processFolders fs)[k]? =
            (fs[k]?).map (fun fe => processFolder fe.1 fe.2))) :=
  ⟨rfl, folder_status_spec pendFolder okEnv rfl⟩

end OcrDoc
